import Mathlib

/-!
Shallow embedding of the task progress / approval workflow of the
`task-flow-backend` repository.

The embedded source files are:
  * `src/models/*` (Mongoose schemas)  — data model with its defaults;
  * `src/controllers/taskController.js` — `createTask`, `updateTask`,
    `deleteTask`, `updateTaskProgress` (submit), `approveTaskProgress`
    (decide); `server.js` mounts `routes/taskRoutes.js`, which binds these
    handlers, so they are the live endpoints (the alternative controller in
    `src/unnamed/part_013` is not mounted by `server.js`);
  * `src/middleware/errorMiddleware.js` — `createNotification`;
  * `src/unnamed/part_011` — `sendPushNotification`.

Mongo documents become Lean structures, ObjectId references become `Nat`,
timestamps become `Nat`, the document store becomes explicit state passing
(`SysState`), and every fallible handler returns `Except`.
-/

set_option linter.unusedVariables false

namespace TaskFlow

/-- `approvalStatus` enum of the embedded `progressUpdates` schema
(`src/models`, task schema): `['pending', 'approved', 'rejected']`. -/
inductive ApprovalStatus where
  | pending
  | approved
  | rejected
deriving DecidableEq, Repr

/-- One entry of `task.progressUpdates` (task schema in `src/models`):
photos, voiceNote, notes, submittedAt, approvalStatus, approvalNote,
approvedAt. -/
structure ProgressUpdate where
  photos : List String
  voiceNote : Option String
  notes : Option String
  submittedAt : Nat
  approvalStatus : ApprovalStatus
  approvalNote : Option String
  approvedAt : Option Nat
deriving DecidableEq, Repr

/-- Task `status` enum: `['Pending', 'In Progress', 'Completed']`. -/
inductive TaskStatus where
  | Pending
  | InProgress
  | Completed
deriving DecidableEq, Repr

/-- A Task document (task schema in `src/models`): ObjectId references are
`Nat`; scheduling metadata that no embedded handler reads is omitted. -/
structure Task where
  id : Nat
  taskName : String
  description : String
  assignedEmployee : Nat
  project : Nat
  createdBy : Nat
  status : TaskStatus
  progressUpdates : List ProgressUpdate
  pendingApproval : Bool
deriving DecidableEq, Repr

/-- A freshly created Task as `Task.create` produces it in `createTask`
(`taskController.js`): schema defaults give `status = 'Pending'`,
`progressUpdates = []`, `pendingApproval = false`. -/
def mkNewTask (id : Nat) (name descr : String) (employee project manager : Nat) : Task :=
  { id := id
    taskName := name
    description := descr
    assignedEmployee := employee
    project := project
    createdBy := manager
    status := TaskStatus.Pending
    progressUpdates := []
    pendingApproval := false }

/-- The evidence payload of a submit request: uploaded photo paths, an
optional voice note path and optional free-text notes
(`updateTaskProgress`, `taskController.js`). -/
structure Evidence where
  photos : List String
  voiceNote : Option String
  notes : Option String
deriving DecidableEq, Repr

/-- The ProgressUpdate pushed by `updateTaskProgress`
(`taskController.js` lines 1150–1156): `approvalStatus: 'pending'`,
`submittedAt: new Date()`, approval fields unset. -/
def mkProgressUpdate (ev : Evidence) (now : Nat) : ProgressUpdate :=
  { photos := ev.photos
    voiceNote := ev.voiceNote
    notes := ev.notes
    submittedAt := now
    approvalStatus := ApprovalStatus.pending
    approvalNote := none
    approvedAt := none }

/-- Failure modes of `updateTaskProgress`: 404 `'Task not found'` and
403 `'Not authorized'` (caller is not the assigned employee). -/
inductive SubmitError where
  | TaskNotFound
  | NotAssigned
deriving DecidableEq, Repr

/-- `updateTaskProgress` (`taskController.js` lines 1114–1160), the submit
operation, applied to the result of `Task.findById`: 404 when the task does
not resolve; 403 when the caller is not `task.assignedEmployee`; otherwise
push a new pending ProgressUpdate, set `status = 'In Progress'` and
`pendingApproval = true`. -/
def updateTaskProgress (found : Option Task) (callerId : Nat) (ev : Evidence)
    (now : Nat) : Except SubmitError Task :=
  match found with
  | none => Except.error SubmitError.TaskNotFound
  | some task =>
    if task.assignedEmployee ≠ callerId then
      Except.error SubmitError.NotAssigned
    else
      Except.ok { task with
        progressUpdates := task.progressUpdates ++ [mkProgressUpdate ev now]
        status := TaskStatus.InProgress
        pendingApproval := true }

/-- The manager's decision, the request body `status` of
`approveTaskProgress`: `'approved'` or `'rejected'`. -/
inductive Decision where
  | approved
  | rejected
deriving DecidableEq, Repr

/-- The `approvalStatus` value written for a decision. -/
def decisionStatus : Decision → ApprovalStatus
  | Decision.approved => ApprovalStatus.approved
  | Decision.rejected => ApprovalStatus.rejected

/-- Mutation of the chosen update in `approveTaskProgress`
(`taskController.js` lines 1204–1206): `approvalStatus = status`,
`approvalNote = approvalNote`, `approvedAt = new Date()`. -/
def applyDecision (u : ProgressUpdate) (d : Decision) (note : Option String)
    (now : Nat) : ProgressUpdate :=
  { u with
    approvalStatus := decisionStatus d
    approvalNote := note
    approvedAt := some now }

/-- `approveTaskProgress` mutates
`task.progressUpdates[task.progressUpdates.length - 1]` in place: the last
entry gets the decision fields, every other entry is untouched. -/
def finalizeLast (d : Decision) (note : Option String) (now : Nat) :
    List ProgressUpdate → List ProgressUpdate
  | [] => []
  | [u] => [applyDecision u d note now]
  | u :: v :: rest => u :: finalizeLast d note now (v :: rest)

/-- Failure modes of `approveTaskProgress`: 404 `'Task not found'`,
403 `'Not authorized'` (caller is not `task.createdBy`), and
400 `'No updates to approve'`. -/
inductive DecideError where
  | TaskNotFound
  | NotOwner
  | NoPendingSubmission
deriving DecidableEq, Repr

/-- `approveTaskProgress` (`taskController.js` lines 1191–1216), the Task
mutation of the decide operation, applied to the result of
`Task.findById`: 404 when absent; 403 when the caller is not
`task.createdBy`; 400 when `progressUpdates` is empty (the code reads
`progressUpdates[length - 1]` and only rejects when that is undefined);
otherwise the latest update gets the decision fields, and the task gets
`status = 'Completed'` when approved, `status = 'In Progress'` when
rejected, `pendingApproval = false` in both cases. -/
def approveTaskProgress (found : Option Task) (callerId : Nat) (d : Decision)
    (note : Option String) (now : Nat) : Except DecideError Task :=
  match found with
  | none => Except.error DecideError.TaskNotFound
  | some task =>
    if task.createdBy ≠ callerId then
      Except.error DecideError.NotOwner
    else if task.progressUpdates.isEmpty then
      Except.error DecideError.NoPendingSubmission
    else
      Except.ok { task with
        progressUpdates := finalizeLast d note now task.progressUpdates
        status := if d = Decision.approved then TaskStatus.Completed
                  else TaskStatus.InProgress
        pendingApproval := false }

/-- `Math.round((completedTasks / totalTasks) * 100)` guarded by
`totalTasks > 0 ? … : 0` (`taskController.js` lines 1219–1222).
`Math.round x = ⌊x + 1/2⌋` for non-negative `x`, and
`⌊100c/t + 1/2⌋ = (200c + t) / (2t)` in integer division. -/
def progressPercentage (completed total : Nat) : Nat :=
  if 0 < total then (2 * (completed * 100) + total) / (2 * total) else 0

/-- Number of entries with `approvalStatus = 'pending'`. -/
def countPending (l : List ProgressUpdate) : Nat :=
  (l.filter (fun u => u.approvalStatus = ApprovalStatus.pending)).length

/-- Whether the latest (highest-index) entry exists and is pending;
`false` on an empty history. -/
def latestPendingFlag (l : List ProgressUpdate) : Bool :=
  match l.getLast? with
  | none => false
  | some u => u.approvalStatus = ApprovalStatus.pending

/-- Project `status` enum (`src/models/Project.js`):
`['Pending', 'Ongoing', 'Completed']`. -/
inductive ProjectStatus where
  | Pending
  | Ongoing
  | Completed
deriving DecidableEq, Repr

/-- A Project document (`src/models/Project.js`), restricted to the fields
the embedded handlers read or write. Schema default: `progress = 0`. -/
structure Project where
  id : Nat
  assignedEmployees : List Nat
  createdBy : Nat
  status : ProjectStatus
  progress : Nat
deriving DecidableEq, Repr

/-- `req.user.role` as set by the auth middleware. -/
inductive Role where
  | admin
  | manager
  | employee
deriving DecidableEq, Repr

/-- The authenticated caller (`req.user`). -/
structure User where
  id : Nat
  name : String
  role : Role
deriving DecidableEq, Repr

/-- `userType` discriminator of the notification schema
(`src/models/Notification.js`): `['Admin', 'Manager', 'Employee']`. -/
inductive UserType where
  | Admin
  | Manager
  | Employee
deriving DecidableEq, Repr

/-- The argument object passed to `createNotification` by the controllers:
`{ userId, userType, title, message, type, relatedId }` where `type` and
`relatedId` may be absent. -/
structure NotifData where
  userId : Nat
  userType : UserType
  title : String
  message : String
  type : Option String
  relatedId : Option Nat
deriving DecidableEq, Repr

/-- The document store visible to the embedded task handlers: the tasks
collection, one Project document, and the set of existing Employee ids
(for `Employee.findById` in `createTask`). -/
structure SysState where
  tasks : List Task
  project : Project
  employees : List Nat
deriving DecidableEq, Repr

/-- `Task.findById` over the embedded tasks collection. -/
def findTask (tasks : List Task) (taskId : Nat) : Option Task :=
  tasks.find? (fun t => t.id = taskId)

/-- `task.save()`: write the mutated document back under its id. -/
def saveTask (tasks : List Task) (t : Task) : List Task :=
  tasks.map (fun u => if u.id = t.id then t else u)

/-- JS whitespace as far as the embedded handlers meet it: the characters
stripped by `String.prototype.trim`. -/
def isWhitespaceChar (c : Char) : Bool :=
  c = ' ' ∨ c = '\t' ∨ c = '\n' ∨ c = '\r'

/-- `String.prototype.trim`, executable over the character list: strip
leading and trailing whitespace. -/
def strTrim (s : String) : String :=
  String.mk
    ((((s.data.dropWhile isWhitespaceChar).reverse).dropWhile
      isWhitespaceChar).reverse)

/-- Failure modes of `createTask` (`taskController.js` lines 536–668):
400 `'Task name is required'`, 404 `'Project not found'`, 403 ownership,
404 `'Employee not found'`, 400 `'Employee must be assigned to the project
first'`. -/
inductive CreateError where
  | NameRequired
  | ProjectNotFound
  | NotProjectOwner
  | EmployeeNotFound
  | EmployeeNotInProject
deriving DecidableEq, Repr

/-- `createTask` (`taskController.js` lines 536–668; the claims cite lines
620–651, its creation segment), mounted behind `protectManager`: validate
the name, resolve the project, check `project.createdBy` is the caller,
resolve the employee, check the employee is in
`project.assignedEmployees`, then create the task (schema defaults) and
emit a `'New Task Assigned'` notification to the employee. The Project's
`progress` is not touched. `newId` stands for the ObjectId Mongo
generates. -/
def createTask (s : SysState) (managerId : Nat) (projectId : Nat)
    (name descr : String) (employee : Nat) (newId : Nat) :
    Except CreateError (SysState × List NotifData) :=
  if strTrim name = "" then
    Except.error CreateError.NameRequired
  else if s.project.id ≠ projectId then
    Except.error CreateError.ProjectNotFound
  else if s.project.createdBy ≠ managerId then
    Except.error CreateError.NotProjectOwner
  else if ¬ s.employees.contains employee then
    Except.error CreateError.EmployeeNotFound
  else if ¬ s.project.assignedEmployees.contains employee then
    Except.error CreateError.EmployeeNotInProject
  else
    let task := mkNewTask newId (strTrim name) descr employee projectId managerId
    Except.ok ({ s with tasks := s.tasks ++ [task] },
      [{ userId := employee
         userType := UserType.Employee
         title := "New Task Assigned"
         message := "You have been assigned a new task: " ++ task.taskName
         type := some "task_assigned"
         relatedId := some task.id }])

/-- The request body of `updateTask`: each field is `none` when absent.
An absent `status` is `none`; present values are drawn from the schema
enum, since `task.save()` rejects any other string via schema
validation. -/
structure UpdateBody where
  taskName : Option String
  description : Option String
  assignedEmployee : Option Nat
  status : Option TaskStatus
  deadline : Option Nat
  project : Option Nat
deriving DecidableEq, Repr

/-- Failure modes of `updateTask` (`taskController.js` lines 811–928). -/
inductive UpdateError where
  | TaskNotFound
  | NotCreator
  | NotAssigned
  | OnlyStatusAllowed
  | StatusRequired
  | AccessDenied
  | EmployeeNotInProject
  | ServerError
deriving DecidableEq, Repr

/-- The post-save notification of `updateTask` (`taskController.js` lines
901–910): emitted only when the body `status` was `'Completed'` and the
caller's role is `'employee'`; the recipient is the creating Manager. -/
def completedNotif (task : Task) (body : UpdateBody) (caller : User) :
    List NotifData :=
  if body.status = some TaskStatus.Completed ∧ caller.role = Role.employee then
    [{ userId := task.createdBy
       userType := UserType.Manager
       title := "Task Completed"
       message := "Employee " ++ caller.name ++ " has completed the task: "
         ++ task.taskName
       type := some "task"
       relatedId := some task.id }]
  else []

/-- Field writes of the manager branch of `updateTask`
(`taskController.js` lines 847–854): each field is written only when
present (truthy); the project reference is never changed. -/
def applyManagerFields (task : Task) (body : UpdateBody) : Task :=
  let task := match body.taskName with
    | some n => { task with taskName := strTrim n }
    | none => task
  let task := match body.description with
    | some d => { task with description := strTrim d }
    | none => task
  let task := match body.assignedEmployee with
    | some e => { task with assignedEmployee := e }
    | none => task
  match body.status with
  | some st => { task with status := st }
  | none => task

/-- `updateTask` (`taskController.js` lines 811–928), the generic task
update. Manager branch: only on tasks they created; when re-assigning, the
new employee must be in the project's `assignedEmployees` (a missing
project document would make the handler throw, caught as a 500). Employee
branch: only on tasks assigned to them, only the `status` field may be
present, and it is required. After saving, if the body status was
`'Completed'` and the caller an employee, the creating Manager gets a
`'Task Completed'` notification. Neither branch touches `progressUpdates`,
`pendingApproval`, or the Project. -/
def updateTask (s : SysState) (caller : User) (taskId : Nat)
    (body : UpdateBody) : Except UpdateError (SysState × List NotifData) :=
  match findTask s.tasks taskId with
  | none => Except.error UpdateError.TaskNotFound
  | some task =>
    match caller.role with
    | Role.manager =>
      if task.createdBy ≠ caller.id then
        Except.error UpdateError.NotCreator
      else
        let employeeChangeBad :=
          match body.assignedEmployee with
          | some e =>
            if e ≠ task.assignedEmployee then
              if s.project.id ≠ task.project then some UpdateError.ServerError
              else if ¬ s.project.assignedEmployees.contains e then
                some UpdateError.EmployeeNotInProject
              else none
            else none
          | none => none
        match employeeChangeBad with
        | some e => Except.error e
        | none =>
          let task := applyManagerFields task body
          Except.ok ({ s with tasks := saveTask s.tasks task },
            completedNotif task body caller)
    | Role.employee =>
      if task.assignedEmployee ≠ caller.id then
        Except.error UpdateError.NotAssigned
      else if body.taskName.isSome ∨ body.description.isSome ∨
          body.assignedEmployee.isSome ∨ body.deadline.isSome ∨
          body.project.isSome then
        Except.error UpdateError.OnlyStatusAllowed
      else
        match body.status with
        | none => Except.error UpdateError.StatusRequired
        | some st =>
          let task := { task with status := st }
          Except.ok ({ s with tasks := saveTask s.tasks task },
            completedNotif task body caller)
    | Role.admin => Except.error UpdateError.AccessDenied

/-- Failure modes of `deleteTask` (`taskController.js` lines 935–973):
404 `'Task not found'`, 403 `'Access denied…'`. -/
inductive DeleteError where
  | TaskNotFound
  | NotCreator
deriving DecidableEq, Repr

/-- `deleteTask` (`taskController.js` lines 935–973): only the creating
manager may delete; the document is removed and nothing else — in
particular the Project's `progress` — is recomputed. -/
def deleteTask (s : SysState) (managerId : Nat) (taskId : Nat) :
    Except DeleteError SysState :=
  match findTask s.tasks taskId with
  | none => Except.error DeleteError.TaskNotFound
  | some task =>
    if task.createdBy ≠ managerId then
      Except.error DeleteError.NotCreator
    else
      Except.ok { s with tasks := s.tasks.filter (fun t => t.id ≠ taskId) }

/-- The store-level submit operation: `updateTaskProgress` applied to
`Task.findById`, the mutated task saved, and the
`'Task Approval Requested'` notification data sent to the creating
Manager (`taskController.js` lines 1114–1179; the notification is wrapped
in a try/catch marked non-fatal). -/
def submitOp (s : SysState) (caller : User) (taskId : Nat) (ev : Evidence)
    (now : Nat) : Except SubmitError (SysState × List NotifData) :=
  match updateTaskProgress (findTask s.tasks taskId) caller.id ev now with
  | Except.error e => Except.error e
  | Except.ok t =>
    Except.ok ({ s with tasks := saveTask s.tasks t },
      [{ userId := t.createdBy
         userType := UserType.Manager
         title := "Task Approval Requested"
         message := "Employee " ++ caller.name
           ++ " has submitted progress for task: " ++ t.taskName
         type := some "task_updated"
         relatedId := some t.id }])

/-- The store-level decide operation (`taskController.js` lines
1191–1240): `approveTaskProgress` applied to `Task.findById`, the task
saved, then the project progress recompute — fetch the tasks of
`task.project`, count the `'Completed'` ones, store
`Math.round((completed / total) * 100)` guarded by `total > 0 ? … : 0`
into that project via `findByIdAndUpdate` — and the decision notification
to the assigned Employee. -/
def decideOp (s : SysState) (caller : User) (taskId : Nat) (d : Decision)
    (note : Option String) (now : Nat) :
    Except DecideError (SysState × List NotifData) :=
  match approveTaskProgress (findTask s.tasks taskId) caller.id d note now with
  | Except.error e => Except.error e
  | Except.ok t =>
    let tasks := saveTask s.tasks t
    let projectTasks := tasks.filter (fun u => u.project = t.project)
    let completedTasks :=
      (projectTasks.filter (fun u => u.status = TaskStatus.Completed)).length
    let totalTasks := projectTasks.length
    let pct := progressPercentage completedTasks totalTasks
    let project := if s.project.id = t.project then
        { s.project with progress := pct }
      else s.project
    Except.ok ({ s with tasks := tasks, project := project },
      [{ userId := t.assignedEmployee
         userType := UserType.Employee
         title := if d = Decision.approved then "Task Approved"
           else "Task Rejected"
         message := "Your update for task \"" ++ t.taskName ++ "\" has been "
           ++ (if d = Decision.approved then "approved" else "rejected")
           ++ ". " ++ note.getD ""
         type := some "task"
         relatedId := some t.id }])

/-- Every system state reachable from `s0` by successful task creation,
generic task update, task deletion, submit and decide operations; failed
calls return an error before any `save`, so they do not change the
store. -/
inductive ReachSys (s0 : SysState) : SysState → Prop where
  | base : ReachSys s0 s0
  | createStep (s s' : SysState) (m pid : Nat) (name descr : String)
      (emp newId : Nat) (ns : List NotifData) :
      ReachSys s0 s → createTask s m pid name descr emp newId = Except.ok (s', ns) →
      ReachSys s0 s'
  | updateStep (s s' : SysState) (caller : User) (taskId : Nat)
      (body : UpdateBody) (ns : List NotifData) :
      ReachSys s0 s → updateTask s caller taskId body = Except.ok (s', ns) →
      ReachSys s0 s'
  | deleteStep (s s' : SysState) (m taskId : Nat) :
      ReachSys s0 s → deleteTask s m taskId = Except.ok s' →
      ReachSys s0 s'
  | submitStep (s s' : SysState) (caller : User) (taskId : Nat)
      (ev : Evidence) (now : Nat) (ns : List NotifData) :
      ReachSys s0 s → submitOp s caller taskId ev now = Except.ok (s', ns) →
      ReachSys s0 s'
  | decideStep (s s' : SysState) (caller : User) (taskId : Nat)
      (d : Decision) (note : Option String) (now : Nat) (ns : List NotifData) :
      ReachSys s0 s → decideOp s caller taskId d note now = Except.ok (s', ns) →
      ReachSys s0 s'

/-- Every Task state reachable from `t0` by successful submit
(`updateTaskProgress`) and decide (`approveTaskProgress`) calls, by any
caller. -/
inductive TaskReach (t0 : Task) : Task → Prop where
  | base : TaskReach t0 t0
  | submit (t t' : Task) (c : Nat) (ev : Evidence) (now : Nat) :
      TaskReach t0 t → updateTaskProgress (some t) c ev now = Except.ok t' →
      TaskReach t0 t'
  | decide (t t' : Task) (c : Nat) (d : Decision) (note : Option String)
      (now : Nat) :
      TaskReach t0 t → approveTaskProgress (some t) c d note now = Except.ok t' →
      TaskReach t0 t'

/-- A persisted Notification document (`src/models/Notification.js`);
schema defaults: `type = 'general'`, `relatedId = null`,
`isRead = false`. -/
structure Notification where
  userId : Nat
  userType : UserType
  title : String
  message : String
  type : String
  relatedId : Option Nat
  isRead : Bool
deriving DecidableEq, Repr

/-- The document built by `Notification.create` inside `createNotification`
(`errorMiddleware.js` lines 1071–1078): `type: data.type || 'general'`,
`relatedId: data.relatedId || null`. -/
def mkNotification (d : NotifData) : Notification :=
  { userId := d.userId
    userType := d.userType
    title := d.title
    message := d.message
    type := d.type.getD "general"
    relatedId := d.relatedId
    isRead := false }

/-- The store write behind `Notification.create`, which may fail with a
persistence error; `persistOk` says whether the write succeeds. -/
inductive StorageError where
  | WriteFailed
deriving DecidableEq, Repr

/-- `Notification.create` as seen by `createNotification`: returns the
persisted document or throws a storage error. -/
def notificationCreate (persistOk : Bool) (d : NotifData) :
    Except StorageError Notification :=
  if persistOk then Except.ok (mkNotification d)
  else Except.error StorageError.WriteFailed

/-- The multicast response of the external messaging provider
(`successCount`/`failureCount` of `sendEachForMulticast`). -/
structure PushResponse where
  successCount : Nat
  failureCount : Nat
deriving DecidableEq, Repr

/-- A failure thrown by the external messaging provider. -/
inductive PushError where
  | DeliveryFailed
deriving DecidableEq, Repr

/-- `admin.messaging().sendEachForMulticast` as an external collaborator:
succeeds with a response or throws. -/
def sendEachForMulticast (deliveryOk : Bool) (resp : PushResponse) :
    Except PushError PushResponse :=
  if deliveryOk then Except.ok resp else Except.error PushError.DeliveryFailed

/-- `sendPushNotification` (`src/unnamed/part_011` lines 28–51): returns
immediately when the Firebase SDK is not initialized; otherwise awaits the
multicast send inside a try/catch that logs the error and returns `null`,
so the function itself never throws. -/
def sendPushNotification (initialized : Bool) (deliveryOk : Bool)
    (resp : PushResponse) : Option PushResponse :=
  if initialized = false then none
  else
    match sendEachForMulticast deliveryOk resp with
    | Except.ok r => some r
    | Except.error _ => none

/-- The recipient document looked up inside `createNotification` to find a
push token (`Admin`/`Manager`/`Employee.findById`). -/
structure Recipient where
  fcmToken : Option String
deriving DecidableEq, Repr

/-- What happened to the push attempt of one `createNotification` call. -/
inductive PushOutcome where
  | notAttempted
  | recipientMissing
  | noToken
  | responded
  | noResponse
deriving DecidableEq, Repr

/-- Observable result of one `createNotification` call: the value the
function returns to its caller, the Notification documents durably
persisted by the call, and the push outcome. -/
structure CreateNotifResult where
  returned : Option Notification
  persisted : List Notification
  pushOutcome : PushOutcome
deriving DecidableEq, Repr

/-- Environment of external effects for one `createNotification` call:
whether the Notification write succeeds, the recipient lookup result, the
Firebase SDK state, and the provider's behavior. -/
structure NotifEnv where
  persistOk : Bool
  recipient : Option Recipient
  pushInit : Bool
  deliveryOk : Bool
  resp : PushResponse
deriving DecidableEq, Repr

/-- `createNotification` (`errorMiddleware.js` lines 1069–1118, the
variant with push): persist the Notification; on a storage error the outer
catch logs and returns `null`. After persistence, look up the recipient;
with no recipient or no `fcmToken` the push is skipped with a log line;
otherwise `sendPushNotification` is awaited inside an inner try/catch that
only logs. The function always returns normally, and the persisted record
is returned regardless of the push outcome. -/
def createNotification (d : NotifData) (env : NotifEnv) : CreateNotifResult :=
  match notificationCreate env.persistOk d with
  | Except.error _ =>
    { returned := none, persisted := [], pushOutcome := PushOutcome.notAttempted }
  | Except.ok n =>
    let outcome :=
      match env.recipient with
      | none => PushOutcome.recipientMissing
      | some r =>
        match r.fcmToken with
        | none => PushOutcome.noToken
        | some _ =>
          match sendPushNotification env.pushInit env.deliveryOk env.resp with
          | some _ => PushOutcome.responded
          | none => PushOutcome.noResponse
    { returned := some n, persisted := [n], pushOutcome := outcome }

/-- `updateTaskProgress` with its notification step made explicit: the
handler saves the task, then calls `createNotification` inside a try/catch
whose comment marks it non-fatal, and answers 200 with the updated task
regardless of what the notification step did. -/
def submitFlow (s : SysState) (caller : User) (taskId : Nat) (ev : Evidence)
    (now : Nat) (env : NotifEnv) :
    Except SubmitError (SysState × List CreateNotifResult) :=
  match submitOp s caller taskId ev now with
  | Except.error e => Except.error e
  | Except.ok (s', ns) =>
    Except.ok (s', ns.map (fun d => createNotification d env))

/-- The spec's progress formula, written from the spec's words
(`§4.2`/`§8`): `round(100 * completedTaskCount / totalTaskCount)` with
round-half-up over the exact rational, and `0` when there are no tasks.
Declared for comparison with the implementation's
`progressPercentage`. -/
def specProgress (completed total : Nat) : Nat :=
  if total = 0 then 0
  else ⌊(100 * (completed : ℚ)) / (total : ℚ) + 1 / 2⌋₊

/-- The progress value the spec's Project invariant demands of a state:
the formula over the tasks currently referencing the (single) project. -/
def specStateProgress (s : SysState) : Nat :=
  let projectTasks := s.tasks.filter (fun u => u.project = s.project.id)
  specProgress
    ((projectTasks.filter (fun u => u.status = TaskStatus.Completed)).length)
    projectTasks.length

/-! Concrete sample states used to instantiate and to refute claims:
manager 1 owns project 5, employee 2 is assigned to it. -/

/-- An evidence payload with no attachments. -/
def exEv : Evidence := { photos := [], voiceNote := none, notes := none }

/-- A newly created task: id 0, assigned to employee 2, project 5,
created by manager 1. -/
def exTask0 : Task := mkNewTask 0 "t" "" 2 5 1

/-- `exTask0` after one submit at time 1. -/
def exTask1 : Task := { exTask0 with
  progressUpdates := [mkProgressUpdate exEv 1]
  status := TaskStatus.InProgress
  pendingApproval := true }

/-- `exTask1` after a second submit at time 2, while the first submission
is still pending. -/
def exTask2 : Task := { exTask1 with
  progressUpdates := exTask1.progressUpdates ++ [mkProgressUpdate exEv 2] }

/-- A finalized (approved at time 2) version of the first submission. -/
def exFinUpdate : ProgressUpdate :=
  applyDecision (mkProgressUpdate exEv 1) Decision.approved none 2

/-- A task whose single ProgressUpdate is already finalized: the state
after submit at time 1 and approve at time 2. -/
def exTaskFin : Task := { exTask0 with
  progressUpdates := [exFinUpdate]
  status := TaskStatus.Completed
  pendingApproval := false }

/-- `exTask2` after an approve at time 3: the first submission is still
pending, the second is approved — reachable by submit, submit, decide. -/
def exTaskMixed : Task := { exTask0 with
  progressUpdates :=
    [mkProgressUpdate exEv 1,
     applyDecision (mkProgressUpdate exEv 2) Decision.approved none 3]
  status := TaskStatus.Completed
  pendingApproval := false }

/-- The manager who owns project 5 and its tasks. -/
def exMgr : User := { id := 1, name := "mgr", role := Role.manager }

/-- The employee assigned to project 5. -/
def exEmp : User := { id := 2, name := "emp", role := Role.employee }

/-- Project 5: created by manager 1, employee 2 assigned, no progress. -/
def exProj : Project :=
  { id := 5, assignedEmployees := [2], createdBy := 1
    status := ProjectStatus.Pending, progress := 0 }

/-- Initial store: project 5 with no tasks yet. -/
def cS0 : SysState := { tasks := [], project := exProj, employees := [2] }

/-- Task 10 of project 5, as `createTask` creates it. -/
def cT1 : Task := mkNewTask 10 "t1" "" 2 5 1

/-- Store after `createTask` of task 10. -/
def cS1 : SysState := { cS0 with tasks := [cT1] }

/-- Task 10 after the submit at time 1. -/
def cT1sub : Task := { cT1 with
  progressUpdates := [mkProgressUpdate exEv 1]
  status := TaskStatus.InProgress
  pendingApproval := true }

/-- Store after the submit on task 10. -/
def cS2 : SysState := { cS1 with tasks := [cT1sub] }

/-- Task 10 after the approval at time 2. -/
def cT1done : Task := { cT1 with
  progressUpdates := [applyDecision (mkProgressUpdate exEv 1) Decision.approved none 2]
  status := TaskStatus.Completed
  pendingApproval := false }

/-- Store after the approval: one task, completed, progress 100. -/
def cS3 : SysState :=
  { tasks := [cT1done], project := { exProj with progress := 100 }
    employees := [2] }

/-- Task 11 of project 5, as `createTask` creates it. -/
def cT2 : Task := mkNewTask 11 "t2" "" 2 5 1

/-- Store after creating task 11: the stored progress is still 100
although only one of the two tasks is completed. -/
def cS4 : SysState := { cS3 with tasks := [cT1done, cT2] }

/-- A three-task store for the progress recompute: task 10 awaits
approval, tasks 11 and 12 are open. -/
def wS0 : SysState :=
  { tasks := [cT1sub, cT2, mkNewTask 12 "t3" "" 2 5 1]
    project := exProj, employees := [2] }

/-- The store after approving task 10 in `wS0`: one of three tasks
completed, progress 33. -/
def wS1 : SysState :=
  { tasks := [cT1done, cT2, mkNewTask 12 "t3" "" 2 5 1]
    project := { exProj with progress := 33 }
    employees := [2] }

/-- The notification data emitted by that approval. -/
def wNs : List NotifData :=
  [{ userId := 2, userType := UserType.Employee, title := "Task Approved"
     message := "Your update for task \"t1\" has been approved. "
     type := some "task", relatedId := some 10 }]

/-- A notification payload sample. -/
def exNotifData : NotifData :=
  { userId := 1, userType := UserType.Manager, title := "T"
    message := "M", type := none, relatedId := none }

/-- Effects environment: persistence succeeds, the recipient exists but
has no push token. -/
def exEnvNoToken : NotifEnv :=
  { persistOk := true, recipient := some { fcmToken := none }
    pushInit := true, deliveryOk := false
    resp := { successCount := 0, failureCount := 0 } }

/-- Effects environment: the Notification write itself fails. -/
def exEnvFail : NotifEnv :=
  { persistOk := false, recipient := none
    pushInit := false, deliveryOk := false
    resp := { successCount := 0, failureCount := 0 } }

/-! Helper lemmas. -/

theorem decisionStatus_ne_pending (d : Decision) :
    decisionStatus d ≠ ApprovalStatus.pending := by
  cases d <;> simp [decisionStatus]

theorem countPending_append (l1 l2 : List ProgressUpdate) :
    countPending (l1 ++ l2) = countPending l1 + countPending l2 := by
  simp [countPending, List.filter_append]

theorem countPending_single_pending (ev : Evidence) (now : Nat) :
    countPending [mkProgressUpdate ev now] = 1 := by
  simp [countPending, mkProgressUpdate]

theorem latestPendingFlag_append (l : List ProgressUpdate)
    (u : ProgressUpdate) :
    latestPendingFlag (l ++ [u]) =
      decide (u.approvalStatus = ApprovalStatus.pending) := by
  simp [latestPendingFlag, List.getLast?_concat]

theorem finalizeLast_eq (d : Decision) (note : Option String) (now : Nat) :
    ∀ (l : List ProgressUpdate) (h : l ≠ []),
      finalizeLast d note now l =
        l.dropLast ++ [applyDecision (l.getLast h) d note now]
  | [], h => absurd rfl h
  | [u], _ => rfl
  | u :: v :: rest, _ => by
    have ih := finalizeLast_eq d note now (v :: rest) (by simp)
    simp [finalizeLast, ih, List.getLast]

theorem submit_ok_inv {task : Task} {c : Nat} {ev : Evidence} {now : Nat}
    {t : Task} (h : updateTaskProgress (some task) c ev now = Except.ok t) :
    task.assignedEmployee = c ∧
    t = { task with
      progressUpdates := task.progressUpdates ++ [mkProgressUpdate ev now]
      status := TaskStatus.InProgress
      pendingApproval := true } := by
  by_cases ha : task.assignedEmployee = c
  · refine ⟨ha, ?_⟩
    simp only [updateTaskProgress, ha, ne_eq, not_true_eq_false, if_false] at h
    rw [ha]
    exact (Except.ok.injEq _ _).mp h |>.symm
  · simp [updateTaskProgress, ha] at h

theorem approve_ok_inv {task : Task} {c : Nat} {d : Decision}
    {note : Option String} {now : Nat} {t : Task}
    (h : approveTaskProgress (some task) c d note now = Except.ok t) :
    task.createdBy = c ∧ task.progressUpdates ≠ [] ∧
    t = { task with
      progressUpdates := finalizeLast d note now task.progressUpdates
      status := if d = Decision.approved then TaskStatus.Completed
                else TaskStatus.InProgress
      pendingApproval := false } := by
  by_cases hc : task.createdBy = c
  · by_cases he : task.progressUpdates.isEmpty
    · simp [approveTaskProgress, hc, he] at h
    · refine ⟨hc, by simpa [List.isEmpty_iff] using he, ?_⟩
      simp only [approveTaskProgress, hc, ne_eq, not_true_eq_false, if_false,
        he, Bool.false_eq_true] at h
      rw [hc]
      exact (Except.ok.injEq _ _).mp h |>.symm
  · simp [approveTaskProgress, hc] at h

theorem progressPercentage_eq_spec (c t : Nat) :
    progressPercentage c t = specProgress c t := by
  unfold progressPercentage specProgress
  rcases Nat.eq_zero_or_pos t with h | h
  · simp [h]
  · rw [if_pos h, if_neg h.ne']
    have key : (100 * (c : ℚ)) / t + 1 / 2 =
        ((2 * (c * 100) + t : ℕ) : ℚ) / ((2 * t : ℕ) : ℚ) := by
      have ht : (t : ℚ) ≠ 0 := Nat.cast_ne_zero.mpr h.ne'
      push_cast
      field_simp
      ring
    rw [key, Nat.floor_div_nat, Nat.floor_natCast]

theorem progressPercentage_le_100 {c t : Nat} (h : c ≤ t) :
    progressPercentage c t ≤ 100 := by
  unfold progressPercentage
  rcases Nat.eq_zero_or_pos t with h0 | h0
  · simp [h0]
  · rw [if_pos h0]
    have hlt : (2 * (c * 100) + t) / (2 * t) < 101 := by
      rw [Nat.div_lt_iff_lt_mul (by omega)]
      omega
    omega

/-! Claim C1. -/

/-- C1, counterexample: from the newly created task `exTask0`, two
successful submits by the assigned employee (no decide in between) reach
`exTask2`, whose history holds two entries with
`approvalStatus = 'pending'` — the "at most one pending ProgressUpdate"
half of the claim is false on the code, which appends a pending update
without consulting `pendingApproval`. -/
theorem atMostOnePending_refuted :
    TaskReach exTask0 exTask2 ∧
    countPending exTask2.progressUpdates = 2 ∧
    exTask2.pendingApproval = true := by
  refine ⟨?_, rfl, rfl⟩
  exact TaskReach.submit exTask1 exTask2 2 exEv 2
    (TaskReach.submit exTask0 exTask1 2 exEv 1 TaskReach.base rfl) rfl

/-- C1, amended: in every Task state reachable from a newly created Task
by successful submit and decide calls, `pendingApproval` is `true` exactly
when the latest ProgressUpdate exists and has `approvalStatus = 'pending'`
(`false` with zero updates); the "at most one pending entry" half of the
claim does not hold, since submit appends unconditionally and decide
finalizes only the latest entry. -/
theorem pendingApproval_matches_latest (id : Nat) (name descr : String)
    (e p m : Nat) (t : Task)
    (h : TaskReach (mkNewTask id name descr e p m) t) :
    t.pendingApproval = latestPendingFlag t.progressUpdates := by
  induction h with
  | base => rfl
  | submit t t' c ev now hre hok ih =>
    obtain ⟨-, rfl⟩ := submit_ok_inv hok
    simp [latestPendingFlag_append, mkProgressUpdate]
  | decide t t' c d note now hre hok ih =>
    obtain ⟨-, hne, rfl⟩ := approve_ok_inv hok
    show false = latestPendingFlag (finalizeLast d note now t.progressUpdates)
    rw [finalizeLast_eq d note now _ hne, latestPendingFlag_append]
    simp [applyDecision, decisionStatus_ne_pending d]

/-- C1, witness: the invariant instantiated at the reachable state
`exTask1`. -/
theorem pendingApproval_matches_latest_witness :
    exTask1.pendingApproval = latestPendingFlag exTask1.progressUpdates :=
  pendingApproval_matches_latest 0 "t" "" 2 5 1 exTask1
    (TaskReach.submit exTask0 exTask1 2 exEv 1 TaskReach.base rfl)

/-! Claim C2. -/

/-- C2, counterexample: `exTaskFin` has one ProgressUpdate, already
finalized (`approved`), and none pending; yet a second decide by the
creating manager (id 1) with the same decision succeeds and overwrites the
finalized entry's decision fields instead of failing with
`NoPendingSubmission`. -/
theorem decide_idempotence_refuted :
    exTaskFin.createdBy = 1 ∧
    countPending exTaskFin.progressUpdates = 0 ∧
    approveTaskProgress (some exTaskFin) 1 Decision.approved (some "again") 7 =
      Except.ok { exTaskFin with
        progressUpdates :=
          [applyDecision exFinUpdate Decision.approved (some "again") 7] } :=
  ⟨rfl, rfl, rfl⟩

/-- C2, amended: a decide by the creating Manager fails with
`NoPendingSubmission` exactly when the Task has zero ProgressUpdates; on a
Task whose updates are all finalized but non-empty, decide succeeds and
re-applies the decision to the latest update. -/
theorem decide_noPending_iff_no_updates (task : Task) (c : Nat)
    (d : Decision) (note : Option String) (now : Nat)
    (hc : task.createdBy = c) :
    approveTaskProgress (some task) c d note now =
      Except.error DecideError.NoPendingSubmission ↔
    task.progressUpdates = [] := by
  by_cases he : task.progressUpdates.isEmpty
  · simp only [List.isEmpty_iff] at he
    simp [approveTaskProgress, hc, he]
  · have he2 : task.progressUpdates.isEmpty = false := by simpa using he
    have hne : task.progressUpdates ≠ [] :=
      fun h => he (List.isEmpty_iff.mpr h)
    simp [approveTaskProgress, hc, he2, hne]

/-- C2, witness: the amended claim at the zero-update task `exTask0`,
decided by its creating manager. -/
theorem decide_noPending_iff_no_updates_witness :
    (approveTaskProgress (some exTask0) 1 Decision.approved none 3 =
      Except.error DecideError.NoPendingSubmission ↔
    exTask0.progressUpdates = []) :=
  decide_noPending_iff_no_updates exTask0 1 Decision.approved none 3 rfl

/-! Claim C3. -/

/-- C3, counterexample: `exTask1` is in the AwaitingApproval state
(`pendingApproval = true`), yet a submit by the assigned employee succeeds
and the resulting state `exTask2` holds a second pending
ProgressUpdate. -/
theorem submit_guard_refuted :
    exTask1.pendingApproval = true ∧
    updateTaskProgress (some exTask1) 2 exEv 2 = Except.ok exTask2 ∧
    countPending exTask2.progressUpdates = 2 :=
  ⟨rfl, rfl, rfl⟩

/-- C3, amended: a submit by the assigned Employee on a Task with
`pendingApproval = true` is neither rejected nor queued: it succeeds and
appends one more pending ProgressUpdate, leaving `pendingApproval` true. -/
theorem submit_no_guard (task : Task) (c : Nat) (ev : Evidence) (now : Nat)
    (hp : task.pendingApproval = true) (ha : task.assignedEmployee = c) :
    updateTaskProgress (some task) c ev now = Except.ok { task with
      progressUpdates := task.progressUpdates ++ [mkProgressUpdate ev now]
      status := TaskStatus.InProgress
      pendingApproval := true } ∧
    countPending (task.progressUpdates ++ [mkProgressUpdate ev now]) =
      countPending task.progressUpdates + 1 := by
  constructor
  · simp [updateTaskProgress, ha]
  · rw [countPending_append, countPending_single_pending]

/-- C3, witness: the amended claim at `exTask1`, which awaits approval. -/
theorem submit_no_guard_witness :
    updateTaskProgress (some exTask1) 2 exEv 2 = Except.ok { exTask1 with
      progressUpdates := exTask1.progressUpdates ++ [mkProgressUpdate exEv 2]
      status := TaskStatus.InProgress
      pendingApproval := true } ∧
    countPending (exTask1.progressUpdates ++ [mkProgressUpdate exEv 2]) =
      countPending exTask1.progressUpdates + 1 :=
  submit_no_guard exTask1 2 exEv 2 rfl rfl

/-! Claim C4. -/

/-- C4, counterexample: `exTaskMixed` (reachable by submit, submit,
approve) has exactly one pending ProgressUpdate — its first entry — but a
decide by the creating manager leaves that entry pending and instead
overwrites the latest, already-approved entry, contradicting "that
ProgressUpdate's approvalStatus becomes the decision". -/
theorem decide_targets_latest_refuted :
    countPending exTaskMixed.progressUpdates = 1 ∧
    exTaskMixed.progressUpdates.head?.map (fun u => u.approvalStatus) =
      some ApprovalStatus.pending ∧
    approveTaskProgress (some exTaskMixed) 1 Decision.rejected (some "n") 9 =
      Except.ok { exTaskMixed with
        progressUpdates :=
          [mkProgressUpdate exEv 1,
           applyDecision
             (applyDecision (mkProgressUpdate exEv 2) Decision.approved none 3)
             Decision.rejected (some "n") 9]
        status := TaskStatus.InProgress } ∧
    (finalizeLast Decision.rejected (some "n") 9
        exTaskMixed.progressUpdates).head?.map (fun u => u.approvalStatus) =
      some ApprovalStatus.pending :=
  ⟨rfl, rfl, rfl, rfl⟩

/-- C4, amended: a decide by the creating Manager on a Task with at least
one ProgressUpdate finalizes the latest entry (which is the pending one in
the single-pending case): that entry's `approvalStatus` becomes the
decision, its `approvalNote` becomes the note, its `approvedAt` is set,
`pendingApproval` becomes false, and the status becomes Completed on
approve and InProgress on reject; a caller other than the creating Manager
fails with `NotOwner`. -/
theorem decide_functional_correctness (task : Task) (c : Nat) (d : Decision)
    (note : Option String) (now : Nat) :
    (∀ h2 : task.progressUpdates ≠ [],
      task.createdBy = c →
      approveTaskProgress (some task) c d note now = Except.ok { task with
        progressUpdates := task.progressUpdates.dropLast ++
          [applyDecision (task.progressUpdates.getLast h2) d note now]
        status := if d = Decision.approved then TaskStatus.Completed
                  else TaskStatus.InProgress
        pendingApproval := false } ∧
      (applyDecision (task.progressUpdates.getLast h2) d note now).approvalStatus
        = decisionStatus d ∧
      (applyDecision (task.progressUpdates.getLast h2) d note now).approvalNote
        = note ∧
      (applyDecision (task.progressUpdates.getLast h2) d note now).approvedAt
        = some now) ∧
    (task.createdBy ≠ c →
      approveTaskProgress (some task) c d note now =
        Except.error DecideError.NotOwner) := by
  constructor
  · intro h2 hc
    refine ⟨?_, rfl, rfl, rfl⟩
    rw [← finalizeLast_eq d note now task.progressUpdates h2]
    have he : task.progressUpdates.isEmpty = false := by
      cases hl : task.progressUpdates with
      | nil => exact absurd hl h2
      | cons a l => rfl
    simp [approveTaskProgress, hc, he]
  · intro hc
    simp [approveTaskProgress, hc]

/-- C4, witness: Scenario C at `exTask1` — reject with note
"redo lighting" — and a decide by a non-owner (id 9). -/
theorem decide_functional_correctness_witness :
    approveTaskProgress (some exTask1) 1 Decision.rejected
        (some "redo lighting") 2 =
      Except.ok { exTask1 with
        progressUpdates :=
          [applyDecision (mkProgressUpdate exEv 1) Decision.rejected
            (some "redo lighting") 2]
        status := TaskStatus.InProgress
        pendingApproval := false } ∧
    approveTaskProgress (some exTask1) 9 Decision.rejected none 2 =
      Except.error DecideError.NotOwner := by
  refine ⟨?_, ?_⟩
  · exact ((decide_functional_correctness exTask1 1 Decision.rejected
      (some "redo lighting") 2).1 (by decide) rfl).1
  · exact (decide_functional_correctness exTask1 9 Decision.rejected
      none 2).2 (by decide)

/-! Claim C5. -/

/-- Shared helper: a successful `decideOp` on a task of the stored project
leaves the project's `progress` equal to the spec's rounded ratio over the
tasks that reference it in the post-state. -/
theorem decide_recomputes (s : SysState) (caller : User) (taskId : Nat)
    (task : Task) (d : Decision) (note : Option String) (now : Nat)
    (s' : SysState) (ns : List NotifData)
    (hfind : findTask s.tasks taskId = some task)
    (hown : s.project.id = task.project)
    (hok : decideOp s caller taskId d note now = Except.ok (s', ns)) :
    s'.project.progress = specStateProgress s' := by
  unfold decideOp at hok
  rw [hfind] at hok
  cases happ : approveTaskProgress (some task) caller.id d note now with
  | error e =>
    rw [happ] at hok
    exact absurd hok (by simp)
  | ok t =>
    obtain ⟨-, -, ht⟩ := approve_ok_inv happ
    have htp : t.project = task.project := by rw [ht]
    rw [happ] at hok
    simp only at hok
    have hcond : s.project.id = t.project := hown.trans htp.symm
    rw [if_pos hcond] at hok
    have hpair := (Except.ok.injEq _ _).mp hok
    have hs' := congrArg Prod.fst hpair
    simp only at hs'
    rw [← hs']
    simp only [specStateProgress]
    rw [htp, hown]
    exact progressPercentage_eq_spec _ _

/-- C5: after every successful decide on a task of the stored Project, the
Project's stored `progress` equals `round(100 * completed / total)` — the
spec's half-up rounding over the exact ratio — computed over the tasks
referencing that Project in the resulting store; and the formula's
zero-task guard yields 0 rather than an error. -/
theorem decide_progress_formula (s : SysState) (caller : User) (taskId : Nat)
    (task : Task) (d : Decision) (note : Option String) (now : Nat)
    (s' : SysState) (ns : List NotifData)
    (hfind : findTask s.tasks taskId = some task)
    (hown : s.project.id = task.project)
    (hok : decideOp s caller taskId d note now = Except.ok (s', ns)) :
    s'.project.progress = specStateProgress s' ∧
    (∀ c : Nat, progressPercentage c 0 = 0 ∧ specProgress c 0 = 0) :=
  ⟨decide_recomputes s caller taskId task d note now s' ns hfind hown hok,
   fun c => ⟨rfl, rfl⟩⟩

/-! Claim C6. -/

/-- C6: a submit by the assigned Employee appends exactly one new pending
ProgressUpdate at the end of the history (existing entries unchanged, in
order), sets the status to InProgress and `pendingApproval` to true; a
non-assigned caller fails with `NotAssigned` and nothing is appended; an
unresolved task id fails with `TaskNotFound`. -/
theorem submit_functional_correctness (task : Task) (c : Nat)
    (ev : Evidence) (now : Nat) :
    (task.assignedEmployee = c →
      updateTaskProgress (some task) c ev now = Except.ok { task with
        progressUpdates := task.progressUpdates ++ [mkProgressUpdate ev now]
        status := TaskStatus.InProgress
        pendingApproval := true } ∧
      (mkProgressUpdate ev now).approvalStatus = ApprovalStatus.pending ∧
      countPending (task.progressUpdates ++ [mkProgressUpdate ev now]) =
        countPending task.progressUpdates + 1) ∧
    (task.assignedEmployee ≠ c →
      updateTaskProgress (some task) c ev now =
        Except.error SubmitError.NotAssigned) ∧
    updateTaskProgress none c ev now = Except.error SubmitError.TaskNotFound := by
  refine ⟨fun ha => ⟨?_, rfl, ?_⟩, fun ha => ?_, rfl⟩
  · simp [updateTaskProgress, ha]
  · rw [countPending_append, countPending_single_pending]
  · simp [updateTaskProgress, ha]

/-- C6, witness: Scenario A (assigned employee 2 submits on `exTask0`),
Scenario D (non-assigned caller 9 is rejected), and a dangling task id. -/
theorem submit_functional_correctness_witness :
    updateTaskProgress (some exTask0) 2 exEv 1 = Except.ok exTask1 ∧
    updateTaskProgress (some exTask0) 9 exEv 1 =
      Except.error SubmitError.NotAssigned ∧
    updateTaskProgress none 9 exEv 1 = Except.error SubmitError.TaskNotFound :=
  ⟨((submit_functional_correctness exTask0 2 exEv 1).1 rfl).1,
   (submit_functional_correctness exTask0 9 exEv 1).2.1 (by decide),
   (submit_functional_correctness exTask0 9 exEv 1).2.2⟩

/-! Claim C7. -/

/-- Frame lemma: `createTask` never touches the Project document. -/
theorem createTask_project {s s' : SysState} {m pid : Nat}
    {name descr : String} {emp newId : Nat} {ns : List NotifData}
    (h : createTask s m pid name descr emp newId = Except.ok (s', ns)) :
    s'.project = s.project := by
  unfold createTask at h
  repeat' split at h
  all_goals try exact Except.noConfusion h
  have hp := (Except.ok.injEq _ _).mp h
  have hs : _ = s' := congrArg Prod.fst hp
  rw [← hs]

/-- Frame lemma: `updateTask` never touches the Project document. -/
theorem updateTask_project {s s' : SysState} {caller : User} {taskId : Nat}
    {body : UpdateBody} {ns : List NotifData}
    (h : updateTask s caller taskId body = Except.ok (s', ns)) :
    s'.project = s.project := by
  unfold updateTask at h
  repeat' split at h
  all_goals try exact Except.noConfusion h
  all_goals
    have hp := (Except.ok.injEq _ _).mp h
    have hs : _ = s' := congrArg Prod.fst hp
    rw [← hs]

/-- Frame lemma: `deleteTask` never touches the Project document. -/
theorem deleteTask_project {s s' : SysState} {m taskId : Nat}
    (h : deleteTask s m taskId = Except.ok s') :
    s'.project = s.project := by
  unfold deleteTask at h
  repeat' split at h
  all_goals try exact Except.noConfusion h
  have hs := (Except.ok.injEq _ _).mp h
  rw [← hs]

/-- Frame lemma: `submitOp` never touches the Project document. -/
theorem submitOp_project {s s' : SysState} {caller : User} {taskId : Nat}
    {ev : Evidence} {now : Nat} {ns : List NotifData}
    (h : submitOp s caller taskId ev now = Except.ok (s', ns)) :
    s'.project = s.project := by
  unfold submitOp at h
  split at h
  · exact Except.noConfusion h
  · have hp := (Except.ok.injEq _ _).mp h
    have hs : _ = s' := congrArg Prod.fst hp
    rw [← hs]

/-- After a successful `decideOp` the stored progress is at most 100, or
the Project document was not the decided task's and is unchanged. -/
theorem decideOp_progress_le {s s' : SysState} {caller : User} {taskId : Nat}
    {d : Decision} {note : Option String} {now : Nat} {ns : List NotifData}
    (h : decideOp s caller taskId d note now = Except.ok (s', ns)) :
    s'.project.progress ≤ 100 ∨ s'.project = s.project := by
  unfold decideOp at h
  split at h
  · exact Except.noConfusion h
  · have hp := (Except.ok.injEq _ _).mp h
    have hs : _ = s' := congrArg Prod.fst hp
    rw [← hs]
    dsimp only
    split
    · left
      exact progressPercentage_le_100 (List.length_filter_le _ _)
    · right
      rfl

/-- C7, counterexample: from the empty store `cS0`, the trace create task
10, submit, approve, create task 11 reaches `cS4`, whose stored Project
progress is still 100 while the spec's formula over its two tasks (one
completed) gives 50 — `createTask` (like `updateTask` and `deleteTask`)
does not recompute progress, so the equality invariant fails. -/
theorem project_progress_invariant_refuted :
    ReachSys cS0 cS4 ∧ cS4.project.progress = 100 ∧
    specStateProgress cS4 = 50 ∧
    cS4.project.progress ≠ specStateProgress cS4 := by
  have h50 : specStateProgress cS4 = 50 := by
    show specProgress 1 2 = 50
    rw [← progressPercentage_eq_spec]
    rfl
  refine ⟨?_, rfl, h50, by rw [h50]; decide⟩
  have h1 : ReachSys cS0 cS1 :=
    ReachSys.createStep cS0 cS1 1 5 "t1" "" 2 10 _ ReachSys.base rfl
  have h2 : ReachSys cS0 cS2 :=
    ReachSys.submitStep cS1 cS2 exEmp 10 exEv 1 _ h1 rfl
  have h3 : ReachSys cS0 cS3 :=
    ReachSys.decideStep cS2 cS3 exMgr 10 Decision.approved none 2 _ h2 rfl
  exact ReachSys.createStep cS3 cS4 1 5 "t2" "" 2 11 _ h3 rfl

/-- C7, amended: in every reachable state the stored Project progress is
an integer in [0,100] (given it starts there), and the equality
`progress = round(100 * completed/total)` is re-established by every
decide on a task of the stored Project — but it is not preserved by task
creation, generic update or deletion, which never recompute it. -/
theorem project_progress_range_invariant (s0 s : SysState)
    (h0 : s0.project.progress ≤ 100) (h : ReachSys s0 s) :
    s.project.progress ≤ 100 ∧
    (∀ (caller : User) (taskId : Nat) (task : Task) (d : Decision)
       (note : Option String) (now : Nat) (s2 : SysState)
       (ns : List NotifData),
      findTask s.tasks taskId = some task →
      s.project.id = task.project →
      decideOp s caller taskId d note now = Except.ok (s2, ns) →
      s2.project.progress = specStateProgress s2) := by
  constructor
  · induction h with
    | base => exact h0
    | createStep s s' m pid name descr emp newId ns hre hok ih =>
      rw [createTask_project hok]; exact ih
    | updateStep s s' caller taskId body ns hre hok ih =>
      rw [updateTask_project hok]; exact ih
    | deleteStep s s' m taskId hre hok ih =>
      rw [deleteTask_project hok]; exact ih
    | submitStep s s' caller taskId ev now ns hre hok ih =>
      rw [submitOp_project hok]; exact ih
    | decideStep s s' caller taskId d note now ns hre hok ih =>
      rcases decideOp_progress_le hok with h1 | h1
      · exact h1
      · rw [h1]; exact ih
  · intro caller taskId task d note now s2 ns hf hop hok
    exact decide_recomputes s caller taskId task d note now s2 ns hf hop hok

/-- C7, witness: the range invariant at the concrete reachable state
`cS4`. -/
theorem project_progress_range_invariant_witness :
    cS4.project.progress ≤ 100 := by
  have h1 : ReachSys cS0 cS1 :=
    ReachSys.createStep cS0 cS1 1 5 "t1" "" 2 10 _ ReachSys.base rfl
  have h2 : ReachSys cS0 cS2 :=
    ReachSys.submitStep cS1 cS2 exEmp 10 exEv 1 _ h1 rfl
  have h3 : ReachSys cS0 cS3 :=
    ReachSys.decideStep cS2 cS3 exMgr 10 Decision.approved none 2 _ h2 rfl
  have h4 : ReachSys cS0 cS4 :=
    ReachSys.createStep cS3 cS4 1 5 "t2" "" 2 11 _ h3 rfl
  exact (project_progress_range_invariant cS0 cS4 (by decide) h4).1

/-- C5, witness: Scenario B — a project with 3 tasks, one of them approved
now, gets stored progress 33 = round(100/3). -/
theorem decide_progress_formula_witness :
    findTask wS0.tasks 10 = some cT1sub ∧
    decideOp wS0 exMgr 10 Decision.approved none 2 = Except.ok (wS1, wNs) ∧
    wS1.project.progress = 33 ∧
    wS1.project.progress = specStateProgress wS1 ∧
    progressPercentage 1 0 = 0 :=
  ⟨rfl, rfl, rfl,
   (decide_progress_formula wS0 exMgr 10 cT1sub Decision.approved none 2
      wS1 wNs rfl rfl rfl).1,
   ((decide_progress_formula wS0 exMgr 10 cT1sub Decision.approved none 2
      wS1 wNs rfl rfl rfl).2 1).1⟩

/-! Claim C8. -/

/-- C8: when the Notification write succeeds, `createNotification` returns
and keeps the persisted record no matter what the push side does (failed
delivery, uninitialized SDK, missing recipient); a recipient without a
push token means the push is skipped (outcome `noToken`, nothing sent);
and the triggering submit workflow's outcome never depends on the
notification/push environment. -/
theorem notification_best_effort (d : NotifData) (env : NotifEnv) :
    (env.persistOk = true →
      (createNotification d env).returned = some (mkNotification d) ∧
      (createNotification d env).persisted = [mkNotification d]) ∧
    (env.persistOk = true → ∀ r, env.recipient = some r → r.fcmToken = none →
      (createNotification d env).pushOutcome = PushOutcome.noToken) ∧
    (∀ (s : SysState) (caller : User) (taskId : Nat) (ev : Evidence)
       (now : Nat) (env2 : NotifEnv),
      (submitFlow s caller taskId ev now env).map Prod.fst =
        (submitFlow s caller taskId ev now env2).map Prod.fst) := by
  refine ⟨fun hp => ?_, fun hp r hr ht => ?_, fun s caller taskId ev now env2 => ?_⟩
  · simp [createNotification, notificationCreate, hp]
  · simp [createNotification, notificationCreate, hp, hr, ht]
  · cases h : submitOp s caller taskId ev now with
    | error e => simp [submitFlow, h]
    | ok p =>
      obtain ⟨s', ns⟩ := p
      simp [submitFlow, h, Except.map]

/-- C8, witness: a tokenless recipient with a failing provider — the
record is kept, the push is skipped, and the submit flow's outcome agrees
with the one under a fully failing environment. -/
theorem notification_best_effort_witness :
    (createNotification exNotifData exEnvNoToken).returned =
      some (mkNotification exNotifData) ∧
    (createNotification exNotifData exEnvNoToken).pushOutcome =
      PushOutcome.noToken ∧
    (submitFlow cS1 exEmp 10 exEv 1 exEnvNoToken).map Prod.fst =
      (submitFlow cS1 exEmp 10 exEv 1 exEnvFail).map Prod.fst :=
  ⟨((notification_best_effort exNotifData exEnvNoToken).1 rfl).1,
   (notification_best_effort exNotifData exEnvNoToken).2.1 rfl
     { fcmToken := none } rfl rfl,
   (notification_best_effort exNotifData exEnvNoToken).2.2 cS1 exEmp 10
     exEv 1 exEnvFail⟩

/-! Claim C9. -/

/-- C9: through the generic `updateTask`, the assigned Employee can set
the status of their task straight to Completed: the call succeeds,
`progressUpdates` and `pendingApproval` are untouched, the Project (and so
its progress) is not recomputed, and the creating Manager is sent a
`'Task Completed'` notification. -/
theorem employee_direct_complete (s : SysState) (caller : User)
    (taskId : Nat) (task : Task)
    (hrole : caller.role = Role.employee)
    (hfind : findTask s.tasks taskId = some task)
    (ha : task.assignedEmployee = caller.id) :
    updateTask s caller taskId
      { taskName := none, description := none, assignedEmployee := none
        status := some TaskStatus.Completed, deadline := none, project := none } =
      Except.ok
        ({ s with tasks := saveTask s.tasks { task with status := TaskStatus.Completed } },
         [{ userId := task.createdBy, userType := UserType.Manager
            title := "Task Completed"
            message := "Employee " ++ caller.name ++ " has completed the task: "
              ++ task.taskName
            type := some "task", relatedId := some task.id }]) ∧
    ({ task with status := TaskStatus.Completed }).progressUpdates =
      task.progressUpdates ∧
    ({ task with status := TaskStatus.Completed }).pendingApproval =
      task.pendingApproval ∧
    ({ s with tasks := saveTask s.tasks { task with status := TaskStatus.Completed } }).project
      = s.project := by
  refine ⟨?_, rfl, rfl, rfl⟩
  unfold updateTask
  rw [hfind, hrole]
  simp [ha, completedNotif, hrole]

/-- C9, witness: employee 2 completes task 10 directly in store `cS1`. -/
theorem employee_direct_complete_witness :
    updateTask cS1 exEmp 10
      { taskName := none, description := none, assignedEmployee := none
        status := some TaskStatus.Completed, deadline := none, project := none } =
      Except.ok
        ({ cS1 with tasks := saveTask cS1.tasks { cT1 with status := TaskStatus.Completed } },
         [{ userId := 1, userType := UserType.Manager
            title := "Task Completed"
            message := "Employee emp has completed the task: t1"
            type := some "task", relatedId := some 10 }]) :=
  (employee_direct_complete cS1 exEmp 10 cT1 rfl rfl rfl).1

/-! Claim C10. -/

/-- C10: when persisting the Notification record fails,
`createNotification` swallows the storage error and returns `null` with
nothing persisted, and the triggering submit workflow still reports
success to its caller with the same updated store. -/
theorem notification_persist_failure_swallowed (d : NotifData)
    (env : NotifEnv) (hp : env.persistOk = false) :
    ((createNotification d env).returned = none ∧
     (createNotification d env).persisted = []) ∧
    (∀ (s : SysState) (caller : User) (taskId : Nat) (ev : Evidence)
       (now : Nat) (s' : SysState) (ns : List NotifData),
      submitOp s caller taskId ev now = Except.ok (s', ns) →
      submitFlow s caller taskId ev now env =
        Except.ok (s', ns.map (fun d2 => createNotification d2 env)) ∧
      ∀ r ∈ ns.map (fun d2 => createNotification d2 env),
        r.returned = none ∧ r.persisted = []) := by
  refine ⟨?_, fun s caller taskId ev now s' ns hok => ⟨?_, ?_⟩⟩
  · simp [createNotification, notificationCreate, hp]
  · simp [submitFlow, hok]
  · intro r hr
    simp only [List.mem_map] at hr
    obtain ⟨d2, -, rfl⟩ := hr
    simp [createNotification, notificationCreate, hp]

/-- C10, witness: the submit on task 10 succeeds and answers the updated
store even though the Notification write failed and no record exists. -/
theorem notification_persist_failure_swallowed_witness :
    (createNotification exNotifData exEnvFail).returned = none ∧
    submitFlow cS1 exEmp 10 exEv 1 exEnvFail =
      Except.ok (cS2,
        [{ returned := none, persisted := []
           pushOutcome := PushOutcome.notAttempted }]) := by
  refine ⟨(notification_persist_failure_swallowed exNotifData exEnvFail rfl).1.1, ?_⟩
  exact ((notification_persist_failure_swallowed exNotifData exEnvFail rfl).2
    cS1 exEmp 10 exEv 1 cS2
    [{ userId := 1, userType := UserType.Manager
       title := "Task Approval Requested"
       message := "Employee emp has submitted progress for task: t1"
       type := some "task_updated", relatedId := some 10 }] rfl).1

end TaskFlow
